import Mathlib

/-!
Verification development for the quiz-solver engine (`quiz_solver.py` of the
TDS-project2 repository).  The Python source is shallowly embedded: pure
helpers become Lean functions, JSON values are an explicit inductive type with
an executable parser modelling `json.loads`, and every external call (browser
rendering, HTTP GET/POST, language-model completions) is an oracle supplied
through an environment record.  Machine integers are modelled with `Nat`/`Int`;
where the source converts through a Python `float` (`int(float(...))` in the
answer formatter) the correctly rounded IEEE-754 binary64 value is computed
exactly with integer arithmetic, including the overflow-to-infinity behaviour.
-/

/-- A JSON value as produced by Python `json.loads`.  Numbers are kept as an
exact decimal `mantissa * 10 ^ exp10` (Python's int/float distinction and
float rounding are not observable by any property studied here).  Objects are
association lists with unique keys in first-insertion order, mirroring the
Python `dict` that `json.loads` builds (later duplicate keys overwrite the
value in place).  The constant extensions `NaN`, `Infinity` and `-Infinity`,
which `json.loads` accepts by default and decodes to the corresponding
floats, are the `nan` and `infinity` constructors. -/
inductive Json where
  | null : Json
  | bool (b : Bool) : Json
  | num (mantissa : Int) (exp10 : Int) : Json
  | nan : Json
  | infinity (neg : Bool) : Json
  | str (s : String) : Json
  | arr (items : List Json) : Json
  | obj (fields : List (String × Json)) : Json

/-- Python truthiness of a decoded JSON value (`None`, `False`, `0`, `""`,
`[]` and empty dict are falsy). -/
def Json.isTruthy : Json → Bool
  | Json.null => false
  | Json.bool b => b
  | Json.num m _ => m != 0
  | Json.nan => true
  | Json.infinity _ => true
  | Json.str s => s != ""
  | Json.arr l => !l.isEmpty
  | Json.obj l => !l.isEmpty

/-- Association-list lookup used for `dict` access (keys are unique, see
`objInsert`). -/
def lookupKey : List (String × Json) → String → Option Json
  | [], _ => none
  | (k2, v) :: rest, k => if k2 = k then some v else lookupKey rest k

/-- Python `d.get(k)`: `None`-free lookup on a dict, raising `AttributeError`
(modelled as `Except.error`) when the receiver is not a dict. -/
def Json.attrGet : Json → String → Except Unit (Option Json)
  | Json.obj kvs, k => Except.ok (lookupKey kvs k)
  | _, _ => Except.error ()

/-- Python `d.get(k, default)`. -/
def Json.attrGetD (j : Json) (k : String) (d : Json) : Except Unit Json :=
  match j with
  | Json.obj kvs => Except.ok ((lookupKey kvs k).getD d)
  | _ => Except.error ()

/-- Python subscript `d[k]`: `KeyError` when the key is absent, `TypeError`
when the receiver is not a dict; both are modelled as `Except.error`. -/
def Json.subscriptGet (j : Json) (k : String) : Except Unit Json :=
  match j with
  | Json.obj kvs =>
    match lookupKey kvs k with
    | some v => Except.ok v
    | none => Except.error ()
  | _ => Except.error ()

/-- Python iteration `for x in v`: lists yield elements, strings yield
one-character strings, dicts yield their keys; numbers, booleans and `None`
raise `TypeError`. -/
def Json.iterElems : Json → Except Unit (List Json)
  | Json.arr l => Except.ok l
  | Json.str s => Except.ok (s.toList.map (fun c => Json.str (String.mk [c])))
  | Json.obj kvs => Except.ok (kvs.map (fun kv => Json.str kv.1))
  | _ => Except.error ()

/-- Truthiness of an `Option Json` as used on results of `.get` (Python
`None` is falsy). -/
def truthyOpt : Option Json → Bool
  | none => false
  | some v => v.isTruthy

/-- Helper for substring search: does `needle` occur inside `hay`? -/
def subAux (needle : List Char) : List Char → Bool
  | [] => needle.isEmpty
  | c :: rest => (needle.isPrefixOf (c :: rest)) || subAux needle rest

/-- Python substring containment `needle in hay`. -/
def containsSub (hay needle : String) : Bool :=
  subAux needle.toList hay.toList

/-- Python `str.lower()` (ASCII case folding, which covers every format hint
and content type exercised here), written over the character list so that it
reduces definitionally. -/
def strLower (s : String) : String := String.mk (s.toList.map Char.toLower)

/-- Python `str.strip()` (whitespace strip at both ends), written over the
character list so that it reduces definitionally. -/
def pyStrip (s : String) : String :=
  String.mk
    (((s.toList.dropWhile Char.isWhitespace).reverse.dropWhile
      Char.isWhitespace).reverse)

/- JSON parser, modelling `json.loads` (strict mode): one value surrounded by
optional whitespace.  Recursion over values uses explicit fuel; the top-level
entry point supplies enough fuel for any input, so the fuel is invisible in
the result. -/

/-- The opening-brace character, kept as a named constant. -/
def braceL : Char := Char.ofNat 123

/-- The closing-brace character, kept as a named constant. -/
def braceR : Char := Char.ofNat 125

/-- Skip JSON whitespace (space, tab, newline, carriage return). -/
def skipWs : List Char → List Char
  | [] => []
  | c :: rest =>
    if c = ' ' ∨ c = '\t' ∨ c = '\n' ∨ c = '\r' then skipWs rest else c :: rest

/-- Value of a hexadecimal digit. -/
def hexVal (c : Char) : Option Nat :=
  if '0' ≤ c ∧ c ≤ '9' then some (c.toNat - 48)
  else if 'a' ≤ c ∧ c ≤ 'f' then some (c.toNat - 87)
  else if 'A' ≤ c ∧ c ≤ 'F' then some (c.toNat - 55)
  else none

/-- Body of a JSON string literal after the opening quote; returns the
decoded characters and the input remaining after the closing quote.  Escaped
surrogate pairs are combined; a lone `\uXXXX` is taken through `Char.ofNat`
(Python would keep a lone surrogate, which Lean `Char` cannot represent; no
claim exercises this corner).  The first argument is fuel; every step
consumes at least one input character, so `length + 1` fuel is always
sufficient. -/
def parseStringBody : Nat → List Char → Option (List Char × List Char)
  | 0, _ => none
  | _, [] => none
  | Nat.succ fuel, c :: rest =>
    if c = '"' then some ([], rest)
    else if c = '\\' then
      match rest with
      | [] => none
      | e :: rest2 =>
        if e = '"' ∨ e = '\\' ∨ e = '/' then
          (parseStringBody fuel rest2).map (fun p => (e :: p.1, p.2))
        else if e = 'b' then
          (parseStringBody fuel rest2).map (fun p => (Char.ofNat 8 :: p.1, p.2))
        else if e = 'f' then
          (parseStringBody fuel rest2).map (fun p => (Char.ofNat 12 :: p.1, p.2))
        else if e = 'n' then
          (parseStringBody fuel rest2).map (fun p => ('\n' :: p.1, p.2))
        else if e = 'r' then
          (parseStringBody fuel rest2).map (fun p => ('\r' :: p.1, p.2))
        else if e = 't' then
          (parseStringBody fuel rest2).map (fun p => ('\t' :: p.1, p.2))
        else if e = 'u' then
          match rest2 with
          | h1 :: h2 :: h3 :: h4 :: rest6 =>
            match hexVal h1, hexVal h2, hexVal h3, hexVal h4 with
            | some a, some b2, some c3, some d4 =>
              let cp := ((a * 16 + b2) * 16 + c3) * 16 + d4
              if 0xD800 ≤ cp ∧ cp < 0xDC00 then
                match rest6 with
                | '\\' :: 'u' :: g1 :: g2 :: g3 :: g4 :: rest12 =>
                  match hexVal g1, hexVal g2, hexVal g3, hexVal g4 with
                  | some a2, some b3, some c4, some d5 =>
                    let lo := ((a2 * 16 + b3) * 16 + c4) * 16 + d5
                    if 0xDC00 ≤ lo ∧ lo < 0xE000 then
                      let full := 0x10000 + (cp - 0xD800) * 0x400 + (lo - 0xDC00)
                      (parseStringBody fuel rest12).map
                        (fun p => (Char.ofNat full :: p.1, p.2))
                    else (parseStringBody fuel rest6).map
                        (fun p => (Char.ofNat cp :: p.1, p.2))
                  | _, _, _, _ => none
                | _ => (parseStringBody fuel rest6).map
                    (fun p => (Char.ofNat cp :: p.1, p.2))
              else (parseStringBody fuel rest6).map
                  (fun p => (Char.ofNat cp :: p.1, p.2))
            | _, _, _, _ => none
          | _ => none
        else none
    else if c.toNat < 32 then none
    else (parseStringBody fuel rest).map (fun p => (c :: p.1, p.2))

/-- Take the longest run of leading decimal digits. -/
def takeDigits : List Char → (List Char × List Char)
  | [] => ([], [])
  | c :: rest =>
    if c.isDigit then
      let p := takeDigits rest
      (c :: p.1, p.2)
    else ([], c :: rest)

/-- Numeric value of a digit run. -/
def digitsToNat (l : List Char) : Nat :=
  l.foldl (fun a c => a * 10 + (c.toNat - 48)) 0

/-- Parse a JSON number token (grammar of `json.loads`: optional minus,
integer part without leading zeros, optional fraction, optional exponent).
Returns the exact decimal value as `Json.num mantissa exp10`. -/
def parseNumToken (cs : List Char) : Option (Json × List Char) :=
  let signed : Bool × List Char :=
    match cs with
    | '-' :: r => (true, r)
    | _ => (false, cs)
  match signed.2 with
  | [] => none
  | c :: _ =>
    if c.isDigit then
      let ip := takeDigits signed.2
      if ip.1.length > 1 ∧ ip.1.headD '0' = '0' then none
      else
        let afterInt := ip.2
        let fracStep : Option (List Char × List Char) :=
          match afterInt with
          | '.' :: r =>
            let fp := takeDigits r
            if fp.1.isEmpty then none else some (fp.1, fp.2)
          | _ => some ([], afterInt)
        match fracStep with
        | none => none
        | some (fds, afterFrac) =>
          let expStep : Option (Int × List Char) :=
            match afterFrac with
            | 'e' :: r | 'E' :: r =>
              let se : Bool × List Char :=
                match r with
                | '+' :: r2 => (false, r2)
                | '-' :: r2 => (true, r2)
                | _ => (false, r)
              let ep := takeDigits se.2
              if ep.1.isEmpty then none
              else
                let ev : Int := Int.ofNat (digitsToNat ep.1)
                some (if se.1 then -ev else ev, ep.2)
            | _ => some (0, afterFrac)
          match expStep with
          | none => none
          | some (ev, rest) =>
            let mag : Nat := digitsToNat (ip.1 ++ fds)
            let m : Int := if signed.1 then -(Int.ofNat mag) else Int.ofNat mag
            some (Json.num m (ev - Int.ofNat fds.length), rest)
    else none

/-- Insert a key/value pair with Python `dict` semantics: an existing key
keeps its position and gets the new value, a new key is appended. -/
def objInsert : List (String × Json) → String → Json → List (String × Json)
  | [], k, v => [(k, v)]
  | (k2, v2) :: rest, k, v =>
    if k2 = k then (k2, v) :: rest else (k2, v2) :: objInsert rest k v

/-- Fold a parsed pair sequence into a dict association list. -/
def mkObj (ps : List (String × Json)) : List (String × Json) :=
  ps.foldl (fun a p => objInsert a p.1 p.2) []

mutual

/-- Parse one JSON value at the head of the input (fuel-driven). -/
def parseVal : Nat → List Char → Option (Json × List Char)
  | 0, _ => none
  | Nat.succ fuel, cs =>
    match cs with
    | [] => none
    | c :: rest =>
      if c = 'n' then
        match rest with
        | 'u' :: 'l' :: 'l' :: r => some (Json.null, r)
        | _ => none
      else if c = 't' then
        match rest with
        | 'r' :: 'u' :: 'e' :: r => some (Json.bool true, r)
        | _ => none
      else if c = 'f' then
        match rest with
        | 'a' :: 'l' :: 's' :: 'e' :: r => some (Json.bool false, r)
        | _ => none
      else if c = '"' then
        (parseStringBody (rest.length + 1) rest).map
          (fun p => (Json.str (String.mk p.1), p.2))
      else if c = '[' then
        match skipWs rest with
        | ']' :: r => some (Json.arr [], r)
        | cs2 =>
          match parseArrItems fuel cs2 with
          | some (items, r) => some (Json.arr items, r)
          | none => none
      else if c = braceL then
        match skipWs rest with
        | [] => none
        | c2 :: r =>
          if c2 = braceR then some (Json.obj [], r)
          else
            match parseObjItems fuel (c2 :: r) with
            | some (ps, r2) => some (Json.obj (mkObj ps), r2)
            | none => none
      else if c = 'N' then
        match rest with
        | 'a' :: 'N' :: r => some (Json.nan, r)
        | _ => none
      else if c = 'I' then
        match rest with
        | 'n' :: 'f' :: 'i' :: 'n' :: 'i' :: 't' :: 'y' :: r =>
          some (Json.infinity false, r)
        | _ => none
      else if c = '-' then
        match rest with
        | 'I' :: 'n' :: 'f' :: 'i' :: 'n' :: 'i' :: 't' :: 'y' :: r =>
          some (Json.infinity true, r)
        | _ => parseNumToken (c :: rest)
      else parseNumToken (c :: rest)

/-- Parse the comma-separated items of a non-empty JSON array, consuming the
closing bracket. -/
def parseArrItems : Nat → List Char → Option (List Json × List Char)
  | 0, _ => none
  | Nat.succ fuel, cs =>
    match parseVal fuel cs with
    | none => none
    | some (v, r) =>
      match skipWs r with
      | ',' :: r2 =>
        match parseArrItems fuel (skipWs r2) with
        | some (vs, r3) => some (v :: vs, r3)
        | none => none
      | ']' :: r2 => some ([v], r2)
      | _ => none

/-- Parse the members of a non-empty JSON object, consuming the closing
brace. -/
def parseObjItems : Nat → List Char → Option (List (String × Json) × List Char)
  | 0, _ => none
  | Nat.succ fuel, cs =>
    match cs with
    | '"' :: rest =>
      match parseStringBody (rest.length + 1) rest with
      | none => none
      | some (kcs, r1) =>
        match skipWs r1 with
        | ':' :: r2 =>
          match parseVal fuel (skipWs r2) with
          | none => none
          | some (v, r3) =>
            match skipWs r3 with
            | ',' :: r4 =>
              match parseObjItems fuel (skipWs r4) with
              | some (ps, r5) => some ((String.mk kcs, v) :: ps, r5)
              | none => none
            | c :: r4 =>
              if c = braceR then some ([(String.mk kcs, v)], r4) else none
            | [] => none
        | _ => none
    | _ => none

end

/-- Model of Python `json.loads`: parse exactly one JSON value surrounded by
optional whitespace (the non-standard constants `NaN`, `Infinity` and
`-Infinity` are accepted, as `json.loads` does by default); `none` models a
raised `JSONDecodeError`. -/
def jsonParse (s : String) : Option Json :=
  match parseVal (s.toList.length + 2) (skipWs s.toList) with
  | some (v, r) => if skipWs r = [] then some v else none
  | none => none

/-- The answer value produced by `format_answer`: an integer, a boolean, a
decoded JSON structure, or the raw string. -/
inductive Answer where
  | int (n : Int) : Answer
  | bool (b : Bool) : Answer
  | json (v : Json) : Answer
  | str (s : String) : Answer

/-- The digits of an optional fractional part: a dot followed by a maximal
digit run (the `\.?\d*` tail of the token regex). -/
def fracPart : List Char → List Char
  | '.' :: r => (takeDigits r).1
  | _ => []

/-- First match of the regex `-?\d+\.?\d*` in the text (the token used by
the numeric branch of `format_answer`): scanning left to right, an optional
minus sign, a maximal digit run, and an optional dot with further digits.
Returns the sign and the integer/fraction digit runs. -/
def firstNumToken : List Char → Option (Bool × List Char × List Char)
  | [] => none
  | c :: rest =>
    if c = '-' then
      match rest with
      | [] => none
      | d :: _ =>
        if d.isDigit then
          some (true, (takeDigits rest).1, fracPart (takeDigits rest).2)
        else firstNumToken rest
    else if c.isDigit then
      some (false, (takeDigits (c :: rest)).1,
        fracPart (takeDigits (c :: rest)).2)
    else firstNumToken rest

/-- Bit length of a natural number (fuel-driven; the value itself is always
enough fuel, and the recursion halves the number each step). -/
def bitLen : Nat → Nat → Nat
  | 0, _ => 0
  | Nat.succ fuel, n => if n = 0 then 0 else bitLen fuel (n / 2) + 1

/-- Bit length with sufficient fuel supplied. -/
def natBits (n : Nat) : Nat := bitLen n n

/-- Round the positive rational `n / d` to the nearest integer, ties to
even. -/
def roundNearEven (n d : Nat) : Nat :=
  let q := n / d
  let r := n % d
  if d < 2 * r then q + 1
  else if 2 * r < d then q
  else if q % 2 = 0 then q else q + 1

/-- Scale the rational `num / den` by `2 ^ (-e)`, as an exact fraction. -/
def scalePair (num den : Nat) (e : Int) : Nat × Nat :=
  if 0 ≤ e then (num, den * 2 ^ e.toNat) else (num * 2 ^ (-e).toNat, den)

/-- Correctly rounded IEEE-754 binary64 conversion of the positive rational
`num / den` (round to nearest, ties to even, exponent unbounded): returns
`(q, e)` with value `q * 2 ^ e` and `2 ^ 52 ≤ q < 2 ^ 53`.  Subnormal
precision loss is irrelevant here because only the truncated integer part is
consumed, and every value that small truncates to 0. -/
def floatFit (num den : Nat) : Nat × Int :=
  let e0 : Int := (natBits num : Int) - (natBits den : Int) - 53
  let p := scalePair num den e0
  let q := roundNearEven p.1 p.2
  let s1 : Nat × Int :=
    if 2 ^ 53 ≤ q then
      let p2 := scalePair num den (e0 + 1)
      (roundNearEven p2.1 p2.2, e0 + 1)
    else (q, e0)
  if 2 ^ 53 ≤ s1.1 then (s1.1 / 2, s1.2 + 1) else s1

/-- Model of `int(float(tok))` for a token matched by `-?\d+\.?\d*`: the
decimal value is rounded to the nearest binary64 float and truncated toward
zero.  `none` models the `OverflowError` raised by `int()` when the
conversion overflows to infinity (a rounded magnitude of at least
`2 ^ 1024`), which the surrounding `except` swallows. -/
def intOfFloatDigits (neg : Bool) (intDigits fracDigits : List Char) :
    Option Int :=
  let m := digitsToNat (intDigits ++ fracDigits)
  if m = 0 then some 0
  else
    let fit := floatFit m (10 ^ fracDigits.length)
    if 972 ≤ fit.2 then none
    else
      let mag : Nat :=
        if 0 ≤ fit.2 then fit.1 * 2 ^ fit.2.toNat
        else fit.1 / 2 ^ (-fit.2).toNat
      some (if neg then -(mag : Int) else (mag : Int))

/-- The branch chain of `format_answer` once the format hint is known to be a
non-empty string; `fmt` is already lower-cased.  Mirrors the
`if/elif` chain on substring tests, with every internal failure falling
through to the raw string (the `try/except` of the source). -/
def formatWithFmt (answer_text : String) (fmt : String) : Answer :=
  if containsSub fmt "number" || containsSub fmt "int" then
    match firstNumToken answer_text.toList with
    | some t =>
      match intOfFloatDigits t.1 t.2.1 t.2.2 with
      | some n => Answer.int n
      | none => Answer.str answer_text
    | none => Answer.str answer_text
  else if containsSub fmt "boolean" || containsSub fmt "bool" then
    if containsSub (strLower answer_text) "true"
        || containsSub (strLower answer_text) "yes" then Answer.bool true
    else if containsSub (strLower answer_text) "false"
        || containsSub (strLower answer_text) "no" then Answer.bool false
    else Answer.str answer_text
  else if containsSub fmt "json" || containsSub fmt "object" then
    match jsonParse answer_text with
    | some v => Answer.json v
    | none => Answer.str answer_text
  else Answer.str answer_text

/-- Model of `QuizSolver.format_answer`.  The format hint is the raw JSON
value found under `answer_format` (absent = `none`).  A falsy hint returns
the text unchanged; `.lower()` on a truthy non-string raises
(`Except.error`), which the *caller* propagates — this happens before the
`try` of the source. -/
def format_answer (answer_text : String) (answer_format : Option Json) :
    Except Unit Answer :=
  match answer_format with
  | none => Except.ok (Answer.str answer_text)
  | some v =>
    if v.isTruthy then
      match v with
      | Json.str s => Except.ok (formatWithFmt answer_text (strLower s))
      | _ => Except.error ()
    else Except.ok (Answer.str answer_text)

/-- The base64 alphabet. -/
def base64Alphabet : String :=
  "ABCDEFGHIJKLMNOPQRSTUVWXYZabcdefghijklmnopqrstuvwxyz0123456789+/"

/-- Character of the base64 alphabet at a 6-bit index. -/
def b64Char (i : Nat) : Char := (base64Alphabet.toList.getD i 'A')

/-- Model of `base64.b64encode(content).decode('utf-8')` over a byte list. -/
def base64Encode : List Nat → String
  | [] => ""
  | [a] =>
    String.mk [b64Char (a / 4), b64Char (a % 4 * 16)] ++ "=="
  | [a, b] =>
    String.mk [b64Char (a / 4), b64Char (a % 4 * 16 + b / 16),
      b64Char (b % 16 * 4)] ++ "="
  | a :: b :: c :: rest =>
    String.mk [b64Char (a / 4), b64Char (a % 4 * 16 + b / 16),
      b64Char (b % 16 * 4 + c / 64), b64Char (c % 64)] ++ base64Encode rest

/-- UTF-8 decoding of a byte list (fuel-driven; `length + 1` fuel always
suffices), modelling `bytes.decode('utf-8')`: `none` is a raised
`UnicodeDecodeError` (overlong encodings, surrogates and out-of-range code
points rejected). -/
def utf8DecodeAux : Nat → List Nat → Option (List Char)
  | 0, _ => none
  | _, [] => some []
  | Nat.succ fuel, b :: rest =>
    if b < 0x80 then
      (utf8DecodeAux fuel rest).map (fun cs => Char.ofNat b :: cs)
    else if b < 0xC2 then none
    else if b < 0xE0 then
      match rest with
      | b2 :: rest2 =>
        if 0x80 ≤ b2 ∧ b2 < 0xC0 then
          (utf8DecodeAux fuel rest2).map
            (fun cs => Char.ofNat ((b - 0xC0) * 64 + (b2 - 0x80)) :: cs)
        else none
      | [] => none
    else if b < 0xF0 then
      match rest with
      | b2 :: b3 :: rest3 =>
        if 0x80 ≤ b2 ∧ b2 < 0xC0 ∧ 0x80 ≤ b3 ∧ b3 < 0xC0 then
          let cp := (b - 0xE0) * 4096 + (b2 - 0x80) * 64 + (b3 - 0x80)
          if cp < 0x800 ∨ (0xD800 ≤ cp ∧ cp < 0xE000) then none
          else (utf8DecodeAux fuel rest3).map (fun cs => Char.ofNat cp :: cs)
        else none
      | _ => none
    else if b < 0xF5 then
      match rest with
      | b2 :: b3 :: b4 :: rest4 =>
        if 0x80 ≤ b2 ∧ b2 < 0xC0 ∧ 0x80 ≤ b3 ∧ b3 < 0xC0
            ∧ 0x80 ≤ b4 ∧ b4 < 0xC0 then
          let cp := (b - 0xF0) * 262144 + (b2 - 0x80) * 4096
            + (b3 - 0x80) * 64 + (b4 - 0x80)
          if cp < 0x10000 ∨ 0x110000 ≤ cp then none
          else (utf8DecodeAux fuel rest4).map (fun cs => Char.ofNat cp :: cs)
        else none
      | _ => none
    else none

/-- Model of `content.decode('utf-8')`. -/
def utf8Decode (bytes : List Nat) : Option String :=
  (utf8DecodeAux (bytes.length + 1) bytes).map String.mk

/-- Python single-quote character, used by `repr` of strings. -/
def quote39 : String := String.singleton (Char.ofNat 39)

/-- Decimal rendering of the exact numeric value carried by `Json.num`
(display abstraction of Python's int/float formatting). -/
def numRender (m : Int) (e : Int) : String :=
  if e = 0 then toString m else toString m ++ "e" ++ toString e

mutual

/-- Python `repr` of a decoded JSON value (string escaping inside `repr` is
not modelled; only used for f-string interpolation of quiz fields). -/
def pyRepr : Json → String
  | Json.null => "None"
  | Json.bool true => "True"
  | Json.bool false => "False"
  | Json.num m e => numRender m e
  | Json.nan => "nan"
  | Json.infinity false => "inf"
  | Json.infinity true => "-inf"
  | Json.str s => quote39 ++ s ++ quote39
  | Json.arr l => "[" ++ pyReprItems l ++ "]"
  | Json.obj kvs => String.singleton braceL ++ pyObjItems kvs
      ++ String.singleton braceR

/-- Comma-separated `repr` of list elements. -/
def pyReprItems : List Json → String
  | [] => ""
  | [x] => pyRepr x
  | x :: xs => pyRepr x ++ ", " ++ pyReprItems xs

/-- Comma-separated `repr` of dict items. -/
def pyObjItems : List (String × Json) → String
  | [] => ""
  | [(k, v)] => quote39 ++ k ++ quote39 ++ ": " ++ pyRepr v
  | (k, v) :: xs => quote39 ++ k ++ quote39 ++ ": " ++ pyRepr v ++ ", "
      ++ pyObjItems xs

end

/-- Python `str` of a decoded JSON value, as interpolated by an f-string:
strings print verbatim, everything else as `repr`. -/
def pyStr : Json → String
  | Json.str s => s
  | j => pyRepr j

/-- Rendered page returned by `render_page`: full HTML and visible text. -/
structure PageContent where
  html : String
  text : String

/-- HTTP response seen by `download_file`: status code, the `Content-Type`
header (absent allowed), and the body bytes. -/
structure HttpResponse where
  status : Nat
  contentTypeHeader : Option String
  body : List Nat

/-- Downloaded file payload: raw bytes plus content-type string. -/
structure FileData where
  content : List Nat
  content_type : String

/-- One entry of the `user_content` list sent to the answering model: either
a text block or an embedded image data-URI. -/
inductive ContentPart where
  | text (s : String) : ContentPart
  | image_url (url : String) : ContentPart

/-- JSON body posted by `submit_answer`. -/
structure SubmitPayload where
  email : String
  secret : String
  url : Json
  answer : Answer

/-- Oracles for the external services used by one quiz-solving step: the
headless browser, the two language-model calls, HTTP GET and HTTP POST.
`Except.error` models a raised exception in the wrapped call. -/
structure StepEnv where
  render : Json → Except Unit PageContent
  llmParse : String → Except Unit String
  httpGet : Json → Except Unit HttpResponse
  llmAnswer : List ContentPart → Except Unit String
  submitPost : Option Json → SubmitPayload → Except Unit Json

/-- Ghost instrumentation: the externally visible calls a step makes, in
order.  Used to state which services were invoked and with what arguments. -/
inductive Event where
  | render (url : Json) : Event
  | parseLLM : Event
  | download (url : Json) : Event
  | answerLLM : Event
  | submit (submitUrl : Option Json) : Event

/-- The fixed prompt of `parse_quiz_with_llm`, with the page text
interpolated. -/
def parsePrompt (pageText : String) : String :=
  "\nYou are a quiz parser. Extract the following information from this quiz page:\n\n1. The question being asked\n2. Any URLs to download files (PDFs, CSVs, etc.)\n3. The submit endpoint URL where answers should be posted\n4. The expected format of the answer (boolean, number, string, object, base64, etc.)\n\nQuiz page content:\n"
    ++ pageText
    ++ "\n\nReturn your response as a JSON object with keys: question, file_urls, submit_url, answer_format\n"

/-- Model of `parse_quiz_with_llm`: send the prompt, `json.loads` the
response.  Any service failure or decode failure is re-raised; note that no
shape check (in particular no `submit_url` check) is performed on the decoded
value. -/
def parse_quiz_with_llm (st : StepEnv) (page : PageContent) :
    Except Unit Json :=
  match st.llmParse (parsePrompt page.text) with
  | Except.error _ => Except.error ()
  | Except.ok s =>
    match jsonParse s with
    | some j => Except.ok j
    | none => Except.error ()

/-- The status check of `download_file` on a received response: the body and
`Content-Type` header (defaulted to `""`) are returned only for status
exactly 200; every other status raises. -/
def downloadCheck (resp : HttpResponse) : Except Unit FileData :=
  if resp.status = 200 then
    Except.ok ⟨resp.body, resp.contentTypeHeader.getD ""⟩
  else Except.error ()

/-- Model of `download_file`: one GET (transport errors raise), then the
status check. -/
def download_file (st : StepEnv) (url : Json) : Except Unit FileData :=
  match st.httpGet url with
  | Except.error _ => Except.error ()
  | Except.ok resp => downloadCheck resp

/-- Sequential downloads of the listed file URLs; the first failure aborts
the remaining fetches.  Returns the GET events attempted, in order. -/
def downloadAll (st : StepEnv) : List Json → List Event × Except Unit (List FileData)
  | [] => ([], Except.ok [])
  | u :: rest =>
    match download_file st u with
    | Except.error _ => ([Event.download u], Except.error ())
    | Except.ok fd =>
      match downloadAll st rest with
      | (evs, Except.error _) => (Event.download u :: evs, Except.error ())
      | (evs, Except.ok fds) => (Event.download u :: evs, Except.ok (fd :: fds))

/-- Step 3 of `solve_single_quiz`: `if quiz_info.get('file_urls'):` iterate
and download.  A non-dict quiz description or a truthy non-iterable value
raises. -/
def fetchPhase (st : StepEnv) (quiz : Json) :
    List Event × Except Unit (List FileData) :=
  match quiz.attrGet "file_urls" with
  | Except.error _ => ([], Except.error ())
  | Except.ok none => ([], Except.ok [])
  | Except.ok (some v) =>
    if v.isTruthy then
      match v.iterElems with
      | Except.error _ => ([], Except.error ())
      | Except.ok us => downloadAll st us
    else ([], Except.ok [])

/-- The `user_content` entries contributed by a single downloaded file in
`solve_with_llm`: PDFs yield a fixed placeholder note, images an inline
base64 data-URI, text/CSV the decoded bytes, and any other content type
contributes nothing at all. -/
def filePart (fd : FileData) : Except Unit (List ContentPart) :=
  if containsSub (strLower fd.content_type) "pdf"
      || containsSub (strLower fd.content_type) "image" then
    if containsSub (strLower fd.content_type) "pdf" then
      Except.ok [ContentPart.text "[PDF file content - analyze the data within]"]
    else
      Except.ok [ContentPart.image_url
        ("data:" ++ fd.content_type ++ ";base64," ++ base64Encode fd.content)]
  else if containsSub (strLower fd.content_type) "text"
      || containsSub (strLower fd.content_type) "csv" then
    match utf8Decode fd.content with
    | some s => Except.ok [ContentPart.text ("File content:\n" ++ s)]
    | none => Except.error ()
  else Except.ok []

/-- The file-loop of `solve_with_llm`, appending each file's parts in order;
a decode failure raises at the first offending file. -/
def fileParts : List FileData → Except Unit (List ContentPart)
  | [] => Except.ok []
  | fd :: rest =>
    match filePart fd with
    | Except.error e => Except.error e
    | Except.ok p =>
      match fileParts rest with
      | Except.error e => Except.error e
      | Except.ok r => Except.ok (p ++ r)

/-- The full `user_content` list sent to the answering model: the question
text block (subscript access — `KeyError` when `question` is missing — and
the `answer_format` hint defaulted to `'appropriate format'`), followed by
the per-file parts. -/
def buildUserContent (quiz : Json) (file_data : List FileData) :
    Except Unit (List ContentPart) :=
  match quiz.subscriptGet "question" with
  | Except.error e => Except.error e
  | Except.ok q =>
    match quiz.attrGetD "answer_format" (Json.str "appropriate format") with
    | Except.error e => Except.error e
    | Except.ok fmtD =>
      match fileParts file_data with
      | Except.error e => Except.error e
      | Except.ok ps =>
        Except.ok (ContentPart.text
          ("Question: " ++ pyStr q
            ++ "\n\nProvide only the answer in the format: " ++ pyStr fmtD)
          :: ps)

/-- Step 4 of `solve_single_quiz` (`solve_with_llm`): build the request,
call the answering model, strip the reply and coerce it with
`format_answer` using the quiz's `answer_format`. -/
def answerPhase (st : StepEnv) (quiz : Json) (fd : List FileData) :
    List Event × Except Unit Answer :=
  match buildUserContent quiz fd with
  | Except.error _ => ([], Except.error ())
  | Except.ok parts =>
    match st.llmAnswer parts with
    | Except.error _ => ([Event.answerLLM], Except.error ())
    | Except.ok txt =>
      match quiz.attrGet "answer_format" with
      | Except.error _ => ([Event.answerLLM], Except.error ())
      | Except.ok af => ([Event.answerLLM], format_answer (pyStrip txt) af)

/-- Model of `solve_single_quiz`: render, parse, fetch, answer, submit, in
order, re-raising the first failure.  The trace records the external calls
made; note that the submission endpoint is taken with `.get('submit_url')`
and is passed along — `None` included — without validation. -/
def solve_single_quiz (st : StepEnv) (email secret : String) (url : Json) :
    List Event × Except Unit Json :=
  match st.render url with
  | Except.error _ => ([Event.render url], Except.error ())
  | Except.ok page =>
    match parse_quiz_with_llm st page with
    | Except.error _ => ([Event.render url, Event.parseLLM], Except.error ())
    | Except.ok quiz =>
      match fetchPhase st quiz with
      | (fev, Except.error _) =>
        (Event.render url :: Event.parseLLM :: fev, Except.error ())
      | (fev, Except.ok fd) =>
        match answerPhase st quiz fd with
        | (aev, Except.error _) =>
          (Event.render url :: Event.parseLLM :: (fev ++ aev), Except.error ())
        | (aev, Except.ok ans) =>
          match quiz.attrGet "submit_url" with
          | Except.error _ =>
            (Event.render url :: Event.parseLLM :: (fev ++ aev), Except.error ())
          | Except.ok su =>
            match st.submitPost su ⟨email, secret, url, ans⟩ with
            | Except.error _ =>
              (Event.render url :: Event.parseLLM
                :: ((fev ++ aev) ++ [Event.submit su]), Except.error ())
            | Except.ok res =>
              (Event.render url :: Event.parseLLM
                :: ((fev ++ aev) ++ [Event.submit su]), Except.ok res)

/-- The wall-clock budget from `QuizSolver.__init__`: 180 seconds. -/
def max_time : Nat := 180

/-- Environment of a whole chain run: a step environment for each iteration
(external services may answer differently over time) and the elapsed
wall-clock seconds observed at the guard of each iteration. -/
structure ChainEnv where
  steps : Nat → StepEnv
  elapsed : Nat → Nat

/-- Outcome of the continue/stop decision at the bottom of the loop body. -/
inductive Decision where
  | cont (nextUrl : Json) : Decision
  | stop : Decision

/-- The decision block of `solve_quiz_chain` after a successful step: the
result (already appended) is inspected with `result.get('correct')` and
`result.get('url')`.  In *both* the correct and the incorrect branch a
truthy next URL continues the loop there and anything else stops it; a
non-dict result makes `.get` raise, which the `except` absorbs, stopping
the loop. -/
def chainDecide (result : Json) : Decision :=
  match result.attrGet "correct" with
  | Except.error _ => Decision.stop
  | Except.ok correctVal =>
    if truthyOpt correctVal = true then
      match result.attrGet "url" with
      | Except.error _ => Decision.stop
      | Except.ok none => Decision.stop
      | Except.ok (some nextUrl) =>
        if nextUrl.isTruthy = true then Decision.cont nextUrl
        else Decision.stop
    else
      match result.attrGet "url" with
      | Except.error _ => Decision.stop
      | Except.ok none => Decision.stop
      | Except.ok (some nextUrl) =>
        if nextUrl.isTruthy = true then Decision.cont nextUrl
        else Decision.stop

/-- The `while` loop of `solve_quiz_chain`.  `k` counts iterations (indexing
the environment), `tr`/`acc` are the event trace and the accumulated
submission results.  The guard requires a truthy current URL and elapsed
time strictly below `max_time`; a step error breaks out of the loop keeping
the results accumulated so far; after a successful step the result is
appended and `chainDecide` (the `if result.get('correct')` block of the
source) decides continuation.  The `fuel` argument only bounds the number of
iterations the model can unfold (the source loop is bounded by the clock);
no property proved here depends on exhausting it. -/
def chainLoop (env : ChainEnv) (email secret : String) :
    Nat → Nat → Json → List Event → List Json → List Event × List Json
  | 0, _, _, tr, acc => (tr, acc)
  | Nat.succ fuel, k, currentUrl, tr, acc =>
    if currentUrl.isTruthy = true ∧ env.elapsed k < max_time then
      match solve_single_quiz (env.steps k) email secret currentUrl with
      | (ev, Except.error _) => (tr ++ ev, acc)
      | (ev, Except.ok result) =>
        match chainDecide result with
        | Decision.cont nextUrl =>
          chainLoop env email secret fuel (k + 1) nextUrl (tr ++ ev)
            (acc ++ [result])
        | Decision.stop => (tr ++ ev, acc ++ [result])
    else (tr, acc)

/-- Model of `solve_quiz_chain`: run the loop from the initial URL with an
empty result list.  The return type (a plain list, not `Except`) reflects
that the function never raises: every step error is absorbed into early
termination. -/
def solve_quiz_chain (env : ChainEnv) (email secret : String)
    (initial_url : Json) (fuel : Nat) : List Event × List Json :=
  chainLoop env email secret fuel 0 initial_url [] []

/- Concrete environments used to instantiate the theorems below. -/

/-- A step environment whose parse response carries a `submit_url` and whose
submission endpoint answers with the given JSON value. -/
def mkStep (resp : Json) : StepEnv :=
  { render := fun _ => Except.ok ⟨"<html>", "page text"⟩
    llmParse := fun _ =>
      Except.ok "\x7b\"question\": \"q\", \"submit_url\": \"S\"\x7d"
    httpGet := fun _ => Except.error ()
    llmAnswer := fun _ => Except.ok "1"
    submitPost := fun _ _ => Except.ok resp }

/-- A step environment whose browser rendering always raises. -/
def stepFail : StepEnv :=
  { render := fun _ => Except.error ()
    llmParse := fun _ => Except.error ()
    httpGet := fun _ => Except.error ()
    llmAnswer := fun _ => Except.error ()
    submitPost := fun _ _ => Except.error () }

/-- A step environment whose parse response decodes but lacks `submit_url`,
and whose submission endpoint raises (as posting to `None` would). -/
def env1 : StepEnv :=
  { render := fun _ => Except.ok ⟨"<html>", "text"⟩
    llmParse := fun _ => Except.ok "\x7b\"question\": \"q\"\x7d"
    httpGet := fun _ => Except.error ()
    llmAnswer := fun _ => Except.ok "42"
    submitPost := fun _ _ => Except.error () }

/-- Grading answer `correct = true` with follow-up URL `"u2"`. -/
def resOkNext : Json :=
  Json.obj [("correct", Json.bool true), ("url", Json.str "u2")]

/-- Grading answer `correct = true` with no follow-up URL. -/
def resOkEnd : Json := Json.obj [("correct", Json.bool true)]

/-- Grading answer `correct = false` with follow-up URL `"u2"`. -/
def resBadNext : Json :=
  Json.obj [("correct", Json.bool false), ("url", Json.str "u2")]

/-- Grading answer `correct = false` with no follow-up URL. -/
def resBadEnd : Json :=
  Json.obj [("correct", Json.bool false), ("reason", Json.str "wrong")]

/-- Grading answer whose follow-up URL is the empty string. -/
def resEmptyUrl : Json :=
  Json.obj [("correct", Json.bool true), ("url", Json.str "")]

/-- Chain environment for the three-quiz scenario of C2: the first step
succeeds and points to `"u2"`, rendering of the second URL raises. -/
def c2Env : ChainEnv :=
  { steps := fun k => if k = 0 then mkStep resOkNext else stepFail
    elapsed := fun _ => 0 }

/-- Chain environment whose clock is already past the budget. -/
def lateEnv : ChainEnv :=
  { steps := fun _ => stepFail
    elapsed := fun _ => 200 }

/-- Chain environment where every submission is graded correct with no
follow-up. -/
def endEnv : ChainEnv :=
  { steps := fun _ => mkStep resOkEnd
    elapsed := fun _ => 0 }

/-- Chain environment where every submission is graded incorrect with a
follow-up URL. -/
def badNextEnv : ChainEnv :=
  { steps := fun _ => mkStep resBadNext
    elapsed := fun _ => 0 }

/-- Chain environment where every submission is graded incorrect with no
follow-up. -/
def badEndEnv : ChainEnv :=
  { steps := fun _ => mkStep resBadEnd
    elapsed := fun _ => 0 }

/-- Chain environment where every submission carries an empty-string
follow-up URL. -/
def emptyUrlEnv : ChainEnv :=
  { steps := fun _ => mkStep resEmptyUrl
    elapsed := fun _ => 0 }

/-- The events of one fully successful `mkStep` iteration at `u`. -/
def mkStepTrace (u : Json) : List Event :=
  [Event.render u, Event.parseLLM, Event.answerLLM,
    Event.submit (some (Json.str "S"))]

/- Helper lemmas. -/

/-- Substring search is antitone in the needle: an occurrence of `n2` yields
an occurrence of any prefix `n1` of `n2`. -/
theorem subAux_mono (n1 n2 : List Char) (hp : n1 <+: n2) :
    ∀ hay : List Char, subAux n2 hay = true → subAux n1 hay = true := by
  intro hay
  induction hay with
  | nil =>
    intro h
    simp only [subAux, List.isEmpty_iff] at h ⊢
    subst h
    exact List.prefix_nil.mp hp
  | cons c rest ih =>
    intro h
    simp only [subAux, Bool.or_eq_true] at h ⊢
    rcases h with h | h
    · exact Or.inl (List.isPrefixOf_iff_prefix.mpr
        (hp.trans (List.isPrefixOf_iff_prefix.mp h)))
    · exact Or.inr (ih h)

/-- A string containing `"boolean"` contains `"bool"`. -/
theorem containsSub_boolean (hay : String)
    (h : containsSub hay "boolean" = true) : containsSub hay "bool" = true :=
  subAux_mono "bool".toList "boolean".toList
    (List.isPrefixOf_iff_prefix.mp (by decide)) hay.toList h

/-- A text without decimal digits contains no numeric token. -/
theorem firstNumToken_eq_none (l : List Char)
    (h : ∀ c ∈ l, c.isDigit = false) : firstNumToken l = none := by
  induction l with
  | nil => rfl
  | cons c rest ih =>
    have hc : c.isDigit = false := h c (List.mem_cons_self c rest)
    have hrest : ∀ x ∈ rest, x.isDigit = false :=
      fun x hx => h x (List.mem_cons_of_mem c hx)
    by_cases hdash : c = '-'
    · simp only [firstNumToken, if_pos hdash]
      cases rest with
      | nil => rfl
      | cons d rest2 =>
        have hd : d.isDigit = false :=
          hrest d (List.mem_cons_self d rest2)
        simp only [hd, Bool.false_eq_true, if_false]
        exact ih hrest
    · simp only [firstNumToken, if_neg hdash, hc, Bool.false_eq_true, if_false]
      exact ih hrest

/-- A nonempty needle only occurs in a nonempty haystack. -/
theorem ne_empty_of_containsSub (hay needle : String)
    (hne : needle.toList ≠ []) (h : containsSub hay needle = true) :
    hay ≠ "" := by
  intro he
  subst he
  simp only [containsSub, subAux, List.isEmpty_iff] at h
  exact hne h

/-- A nonempty lower-cased needle occurring in `fmt.toLower` forces `fmt`
itself to be nonempty. -/
theorem fmt_ne_empty_of_lower_contains (fmt needle : String)
    (hne : needle.toList ≠ [])
    (h : containsSub (strLower fmt) needle = true) : fmt ≠ "" := by
  intro he
  subst he
  exact ne_empty_of_containsSub "" needle hne h rfl

/-- Evaluation of `format_answer` on a truthy string-valued format hint:
lower-case the hint and run the branch chain. -/
theorem format_answer_str (raw fmt : String) (hf : fmt ≠ "") :
    format_answer raw (some (Json.str fmt))
      = Except.ok (formatWithFmt raw (strLower fmt)) := by
  simp only [format_answer, Json.isTruthy]
  rw [if_pos (by simp [hf])]

/-- C3 counterexample: the HTTP status 201 is a success (2xx) status, yet
`download_file`'s status check raises for it, because the source tests
`status == 200` rather than the 2xx range.  This refutes the claim that a
payload is returned for every 2xx status. -/
theorem C3_counterexample :
    downloadCheck ⟨201, none, []⟩ = Except.error ()
    ∧ 200 ≤ 201 ∧ 201 < 300 := by
  refine ⟨?_, by decide, by decide⟩
  rfl

/-- C3 (amended): `download_file`'s status check returns the payload (body
bytes plus the `Content-Type` header defaulted to the empty string) exactly
when the response status is 200, and raises a `FetchError` for every other
status — not for every non-2xx status. -/
theorem C3_amended (resp : HttpResponse) :
    (downloadCheck resp = Except.ok ⟨resp.body, resp.contentTypeHeader.getD ""⟩
      ↔ resp.status = 200)
    ∧ (resp.status ≠ 200 → downloadCheck resp = Except.error ()) := by
  constructor
  · constructor
    · intro h
      by_contra hne
      rw [downloadCheck, if_neg hne] at h
      exact Except.noConfusion h
    · intro h
      rw [downloadCheck, if_pos h]
  · intro h
    rw [downloadCheck, if_neg h]

/-- C3 witness: the amended claim applied to a concrete non-200 response,
with the hypothesis discharged. -/
theorem C3_witness :
    downloadCheck ⟨404, some "text/html", [1, 2]⟩ = Except.error () :=
  (C3_amended ⟨404, some "text/html", [1, 2]⟩).2 (by decide)

/-- C7 counterexample: for `answer_format = "number object"` — which contains
`"object"` — and an answer text that is valid JSON, `format_answer` does not
return the strict JSON decode: the `number`/`int` branch of the `if/elif`
chain fires first and yields the integer 7.  This refutes the claim as a
universal statement over every format containing `"json"`/`"object"`. -/
theorem C7_counterexample :
    containsSub (strLower "number object") "object" = true
    ∧ jsonParse "[7, 8]" = some (Json.arr [Json.num 7 0, Json.num 8 0])
    ∧ format_answer "[7, 8]" (some (Json.str "number object"))
        = Except.ok (Answer.int 7)
    ∧ format_answer "[7, 8]" (some (Json.str "number object"))
        ≠ Except.ok (Answer.json (Json.arr [Json.num 7 0, Json.num 8 0])) := by
  refine ⟨rfl, rfl, rfl, ?_⟩
  intro h
  have h2 := congrArg
    (fun x => match x with
      | Except.ok (Answer.int _) => true
      | _ => false) h
  exact absurd h2 (by decide)

/-- C7 (amended): when the format hint contains `"json"` or `"object"`
(case-insensitively) *and* triggers none of the earlier branches of the
chain (no `"number"`, `"int"` or `"bool"` substring), `format_answer`
returns the strict JSON decode of the raw text when it parses and otherwise
returns the raw text unchanged — no error is ever raised on a decode
failure. -/
theorem C7_json_format (raw fmt : String)
    (h : containsSub (strLower fmt) "json" = true
      ∨ containsSub (strLower fmt) "object" = true)
    (hn : containsSub (strLower fmt) "number" = false)
    (hi : containsSub (strLower fmt) "int" = false)
    (hb : containsSub (strLower fmt) "bool" = false) :
    format_answer raw (some (Json.str fmt)) =
      Except.ok (match jsonParse raw with
        | some v => Answer.json v
        | none => Answer.str raw) := by
  have hbe : containsSub (strLower fmt) "boolean" = false := by
    cases hcb : containsSub (strLower fmt) "boolean"
    · rfl
    · exact absurd (containsSub_boolean _ hcb) (by simp [hb])
  have hne : fmt ≠ "" := by
    rcases h with h | h
    · exact fmt_ne_empty_of_lower_contains fmt "json" (by decide) h
    · exact fmt_ne_empty_of_lower_contains fmt "object" (by decide) h
  rw [format_answer_str raw fmt hne]
  have hA : ¬ ((containsSub (strLower fmt) "number"
      || containsSub (strLower fmt) "int") = true) := by simp [hn, hi]
  have hB : ¬ ((containsSub (strLower fmt) "boolean"
      || containsSub (strLower fmt) "bool") = true) := by simp [hbe, hb]
  have hC : (containsSub (strLower fmt) "json"
      || containsSub (strLower fmt) "object") = true := by
    rcases h with h | h <;> simp [h]
  simp only [formatWithFmt, if_neg hA, if_neg hB, if_pos hC]

/-- C7 witness: the amended claim applied to the spec's own example — an
unparsable text under format `"object"` falls back to the raw string with no
error — and to the text `"NaN"`, which `json.loads` accepts by default and
decodes to a float, so the JSON branch returns the decoded value rather than
falling back. -/
theorem C7_witness :
    (format_answer "not valid json\x7b\x7b" (some (Json.str "object")) =
      Except.ok (match jsonParse "not valid json\x7b\x7b" with
        | some v => Answer.json v
        | none => Answer.str "not valid json\x7b\x7b"))
    ∧ (format_answer "NaN" (some (Json.str "object")) =
      Except.ok (match jsonParse "NaN" with
        | some v => Answer.json v
        | none => Answer.str "NaN")) :=
  ⟨C7_json_format "not valid json\x7b\x7b" "object" (Or.inr (by decide))
      (by decide) (by decide) (by decide),
    C7_json_format "NaN" "object" (Or.inr (by decide))
      (by decide) (by decide) (by decide)⟩

/-- A 320-digit numeric token, larger than any finite binary64 value. -/
def bigToken : String := String.mk (List.replicate 320 '9')

/-- C8 counterexample: the first numeric token of `"2.9999999999999999"` has
integer part 2, but the source computes `int(float(token))`, and the nearest
binary64 value of the token is exactly 3.0, so `format_answer` returns 3 —
not the token with "any fractional part truncated", which would be 2.  This
refutes the claim as stated. -/
theorem C8_counterexample :
    firstNumToken "2.9999999999999999".toList
      = some (false, ['2'],
          ['9', '9', '9', '9', '9', '9', '9', '9', '9', '9', '9', '9', '9',
            '9', '9', '9'])
    ∧ format_answer "2.9999999999999999" (some (Json.str "number"))
      = Except.ok (Answer.int 3)
    ∧ format_answer "2.9999999999999999" (some (Json.str "number"))
      ≠ Except.ok (Answer.int 2) := by
  refine ⟨rfl, rfl, ?_⟩
  intro h
  have h2 := congrArg
    (fun x => match x with
      | Except.ok (Answer.int n) => n
      | _ => (0 : Int)) h
  exact absurd h2 (by decide)

set_option maxRecDepth 40000 in
set_option exponentiation.threshold 4096 in
/-- C8 (amended): with a format hint containing `"number"` or `"int"`
(case-insensitively), `format_answer` converts the first signed decimal
token via `int(float(token))`: the token is rounded to the nearest IEEE-754
binary64 value and then truncated toward zero — 42 for
`"The answer is 42."`, but 3 for `"2.9999999999999999"` and
9007199254740992 for `"9007199254740993"` — and the raw text is returned
unchanged when the text has no numeric token, or when the token is so large
that the float conversion overflows to infinity (the `OverflowError` of
`int()` is swallowed). -/
theorem C8_amended :
    (∀ raw fmt : String,
      (containsSub (strLower fmt) "number" = true
        ∨ containsSub (strLower fmt) "int" = true) →
      format_answer raw (some (Json.str fmt)) =
        Except.ok (match firstNumToken raw.toList with
          | some t =>
            match intOfFloatDigits t.1 t.2.1 t.2.2 with
            | some n => Answer.int n
            | none => Answer.str raw
          | none => Answer.str raw))
    ∧ format_answer "The answer is 42." (some (Json.str "number"))
        = Except.ok (Answer.int 42)
    ∧ format_answer "9007199254740993" (some (Json.str "number"))
        = Except.ok (Answer.int 9007199254740992)
    ∧ format_answer bigToken (some (Json.str "number"))
        = Except.ok (Answer.str bigToken)
    ∧ (∀ raw fmt : String,
      (containsSub (strLower fmt) "number" = true
        ∨ containsSub (strLower fmt) "int" = true) →
      (∀ c ∈ raw.toList, c.isDigit = false) →
      format_answer raw (some (Json.str fmt)) = Except.ok (Answer.str raw)) := by
  have main : ∀ raw fmt : String,
      (containsSub (strLower fmt) "number" = true
        ∨ containsSub (strLower fmt) "int" = true) →
      format_answer raw (some (Json.str fmt)) =
        Except.ok (match firstNumToken raw.toList with
          | some t =>
            match intOfFloatDigits t.1 t.2.1 t.2.2 with
            | some n => Answer.int n
            | none => Answer.str raw
          | none => Answer.str raw) := by
    intro raw fmt h
    have hne : fmt ≠ "" := by
      rcases h with h | h
      · exact fmt_ne_empty_of_lower_contains fmt "number" (by decide) h
      · exact fmt_ne_empty_of_lower_contains fmt "int" (by decide) h
    rw [format_answer_str raw fmt hne]
    have hA : (containsSub (strLower fmt) "number"
        || containsSub (strLower fmt) "int") = true := by
      rcases h with h | h <;> simp [h]
    simp only [formatWithFmt, if_pos hA]
  refine ⟨main, rfl, rfl, rfl, ?_⟩
  intro raw fmt h hd
  rw [main raw fmt h, firstNumToken_eq_none raw.toList hd]

/-- C8 witness: the amended claim applied at the rounding example
`"2.9999999999999999"` and, with both hypotheses discharged, at a digit-free
text. -/
theorem C8_witness :
    format_answer "2.9999999999999999" (some (Json.str "number")) =
      Except.ok (match firstNumToken "2.9999999999999999".toList with
        | some t =>
          match intOfFloatDigits t.1 t.2.1 t.2.2 with
          | some n => Answer.int n
          | none => Answer.str "2.9999999999999999"
        | none => Answer.str "2.9999999999999999")
    ∧ format_answer "no digits here" (some (Json.str "int"))
        = Except.ok (Answer.str "no digits here") :=
  ⟨C8_amended.1 "2.9999999999999999" "number" (Or.inl (by decide)),
    C8_amended.2.2.2.2 "no digits here" "int" (Or.inr (by decide))
      (by decide)⟩

/-- A result carrying a truthy `url` value continues the chain there,
whatever `correct` is. -/
theorem chainDecide_cont (res : Json) (cv : Option Json) (nu : Json)
    (hcv : res.attrGet "correct" = Except.ok cv)
    (hurl : res.attrGet "url" = Except.ok (some nu))
    (hnu : nu.isTruthy = true) :
    chainDecide res = Decision.cont nu := by
  unfold chainDecide
  rw [hcv]
  by_cases h : truthyOpt cv = true <;> simp [h, hurl, hnu]

/-- A result with no `url` key stops the chain, whatever `correct` is. -/
theorem chainDecide_stop_absent (res : Json) (cv : Option Json)
    (hcv : res.attrGet "correct" = Except.ok cv)
    (hurl : res.attrGet "url" = Except.ok none) :
    chainDecide res = Decision.stop := by
  unfold chainDecide
  rw [hcv]
  by_cases h : truthyOpt cv = true <;> simp [h, hurl]

/-- A result with a falsy `url` value (such as the empty string) stops the
chain, whatever `correct` is. -/
theorem chainDecide_stop_falsy (res : Json) (cv : Option Json) (nu : Json)
    (hcv : res.attrGet "correct" = Except.ok cv)
    (hurl : res.attrGet "url" = Except.ok (some nu))
    (hnu : nu.isTruthy = false) :
    chainDecide res = Decision.stop := by
  unfold chainDecide
  rw [hcv]
  by_cases h : truthyOpt cv = true <;> simp [h, hurl, hnu]

/-- Unfolding of one loop iteration whose step fails. -/
theorem chainLoop_error (env : ChainEnv) (email secret : String)
    (fuel k : Nat) (u : Json) (ev tr : List Event) (acc : List Json)
    (h1 : u.isTruthy = true) (h2 : env.elapsed k < max_time)
    (hstep : solve_single_quiz (env.steps k) email secret u
      = (ev, Except.error ())) :
    chainLoop env email secret (fuel + 1) k u tr acc = (tr ++ ev, acc) := by
  show chainLoop env email secret (Nat.succ fuel) k u tr acc = (tr ++ ev, acc)
  rw [chainLoop, if_pos ⟨h1, h2⟩, hstep]

/-- Unfolding of one loop iteration whose step succeeds and whose decision
continues. -/
theorem chainLoop_cont (env : ChainEnv) (email secret : String)
    (fuel k : Nat) (u : Json) (ev tr : List Event) (acc : List Json)
    (res nu : Json)
    (h1 : u.isTruthy = true) (h2 : env.elapsed k < max_time)
    (hstep : solve_single_quiz (env.steps k) email secret u
      = (ev, Except.ok res))
    (hdec : chainDecide res = Decision.cont nu) :
    chainLoop env email secret (fuel + 1) k u tr acc
      = chainLoop env email secret fuel (k + 1) nu (tr ++ ev) (acc ++ [res]) := by
  show chainLoop env email secret (Nat.succ fuel) k u tr acc = _
  rw [chainLoop, if_pos ⟨h1, h2⟩, hstep]
  show (match chainDecide res with
    | Decision.cont nextUrl =>
      chainLoop env email secret fuel (k + 1) nextUrl (tr ++ ev) (acc ++ [res])
    | Decision.stop => (tr ++ ev, acc ++ [res])) = _
  rw [hdec]

/-- Unfolding of one loop iteration whose step succeeds and whose decision
stops. -/
theorem chainLoop_stop (env : ChainEnv) (email secret : String)
    (fuel k : Nat) (u : Json) (ev tr : List Event) (acc : List Json)
    (res : Json)
    (h1 : u.isTruthy = true) (h2 : env.elapsed k < max_time)
    (hstep : solve_single_quiz (env.steps k) email secret u
      = (ev, Except.ok res))
    (hdec : chainDecide res = Decision.stop) :
    chainLoop env email secret (fuel + 1) k u tr acc
      = (tr ++ ev, acc ++ [res]) := by
  show chainLoop env email secret (Nat.succ fuel) k u tr acc = _
  rw [chainLoop, if_pos ⟨h1, h2⟩, hstep]
  show (match chainDecide res with
    | Decision.cont nextUrl =>
      chainLoop env email secret fuel (k + 1) nextUrl (tr ++ ev) (acc ++ [res])
    | Decision.stop => (tr ++ ev, acc ++ [res])) = _
  rw [hdec]

/-- Every step's trace starts with the render call at the step's URL. -/
theorem solve_single_quiz_trace_head (st : StepEnv) (email secret : String)
    (u : Json) :
    ∃ rest, (solve_single_quiz st email secret u).1
      = Event.render u :: rest := by
  unfold solve_single_quiz
  repeat' split
  all_goals exact ⟨_, rfl⟩

/-- Chain environment in which every step's rendering raises at once. -/
def failEnv : ChainEnv :=
  { steps := fun _ => stepFail
    elapsed := fun _ => 0 }

/-- C2: `solve_quiz_chain` absorbs every step error: an iteration whose step
raises stops the loop and returns exactly the results accumulated before
that iteration (nothing is appended for the failing step); the return type
of the model (`List`, not `Except`) reflects that the function itself never
raises.  Concretely, in a chain whose first quiz succeeds and points to a
second URL whose rendering raises, the run returns exactly the one result of
the first URL. -/
theorem C2_error_absorbed :
    (∀ (env : ChainEnv) (email secret : String) (fuel k : Nat) (u : Json)
        (ev tr : List Event) (acc : List Json),
      u.isTruthy = true →
      env.elapsed k < max_time →
      solve_single_quiz (env.steps k) email secret u = (ev, Except.error ()) →
      chainLoop env email secret (fuel + 1) k u tr acc = (tr ++ ev, acc))
    ∧ (solve_quiz_chain c2Env "e" "s" (Json.str "u1") 5).2 = [resOkNext]
    ∧ (solve_quiz_chain c2Env "e" "s" (Json.str "u1") 5).2.length = 1 := by
  refine ⟨?_, rfl, rfl⟩
  intro env email secret fuel k u ev tr acc h1 h2 hstep
  exact chainLoop_error env email secret fuel k u ev tr acc h1 h2 hstep

/-- C2 witness: the error-absorption equation applied at a concrete failing
environment, hypotheses discharged. -/
theorem C2_witness :
    chainLoop failEnv "e" "s" (0 + 1) 0 (Json.str "u") [] []
      = ([] ++ [Event.render (Json.str "u")], []) :=
  C2_error_absorbed.1 failEnv "e" "s" 0 0 (Json.str "u")
    [Event.render (Json.str "u")] [] [] rfl (by decide) rfl

/-- C4: the loop budget is `max_time = 180` seconds and the loop guard is
strict: whenever the elapsed clock at an iteration boundary has reached
`max_time`, the loop performs no further iteration (no step events are
added) and terminates with exactly the accumulated results. -/
theorem C4_time_guard :
    max_time = 180
    ∧ (∀ (env : ChainEnv) (email secret : String) (fuel k : Nat) (u : Json)
        (tr : List Event) (acc : List Json),
      max_time ≤ env.elapsed k →
      chainLoop env email secret fuel k u tr acc = (tr, acc)) := by
  refine ⟨rfl, ?_⟩
  intro env email secret fuel k u tr acc h
  cases fuel with
  | zero => rfl
  | succ fuel =>
    rw [chainLoop, if_neg]
    intro hc
    exact absurd hc.2 (Nat.not_lt.mpr h)

/-- C4 witness: the guard theorem applied at an environment whose clock
reads 200 seconds, hypothesis discharged. -/
theorem C4_witness :
    chainLoop lateEnv "e" "s" 3 0 (Json.str "u") [] [] = ([], []) :=
  C4_time_guard.2 lateEnv "e" "s" 3 0 (Json.str "u") [] [] (by decide)

/-- C5: after a successfully submitted iteration whose grading result has a
truthy `correct`, the result is appended; with a (non-empty) next URL the
loop continues at exactly that URL — and every iteration's step renders
exactly its current URL, so the next render call receives that URL — while
an absent next URL terminates the loop right after appending the result. -/
theorem C5_correct_true :
    (∀ (st : StepEnv) (email secret : String) (u : Json),
      ∃ rest, (solve_single_quiz st email secret u).1
        = Event.render u :: rest)
    ∧ (∀ (env : ChainEnv) (email secret : String) (fuel k : Nat) (u : Json)
        (ev tr : List Event) (acc : List Json) (res : Json)
        (cv : Option Json) (nu : Json),
      u.isTruthy = true →
      env.elapsed k < max_time →
      solve_single_quiz (env.steps k) email secret u = (ev, Except.ok res) →
      res.attrGet "correct" = Except.ok cv →
      truthyOpt cv = true →
      res.attrGet "url" = Except.ok (some nu) →
      nu.isTruthy = true →
      chainLoop env email secret (fuel + 1) k u tr acc
        = chainLoop env email secret fuel (k + 1) nu (tr ++ ev) (acc ++ [res]))
    ∧ (∀ (env : ChainEnv) (email secret : String) (fuel k : Nat) (u : Json)
        (ev tr : List Event) (acc : List Json) (res : Json)
        (cv : Option Json),
      u.isTruthy = true →
      env.elapsed k < max_time →
      solve_single_quiz (env.steps k) email secret u = (ev, Except.ok res) →
      res.attrGet "correct" = Except.ok cv →
      truthyOpt cv = true →
      res.attrGet "url" = Except.ok none →
      chainLoop env email secret (fuel + 1) k u tr acc
        = (tr ++ ev, acc ++ [res])) := by
  refine ⟨solve_single_quiz_trace_head, ?_, ?_⟩
  · intro env email secret fuel k u ev tr acc res cv nu h1 h2 hstep hcv hct
      hurl hnu
    exact chainLoop_cont env email secret fuel k u ev tr acc res nu h1 h2
      hstep (chainDecide_cont res cv nu hcv hurl hnu)
  · intro env email secret fuel k u ev tr acc res cv h1 h2 hstep hcv hct hurl
    exact chainLoop_stop env email secret fuel k u ev tr acc res h1 h2 hstep
      (chainDecide_stop_absent res cv hcv hurl)

/-- C5 witness: both decision cases applied at concrete environments
(`correct: true` with next URL `"u2"`, and `correct: true` with no `url`
key), all hypotheses discharged. -/
theorem C5_witness :
    (chainLoop c2Env "e" "s" (4 + 1) 0 (Json.str "u1") [] []
      = chainLoop c2Env "e" "s" 4 1 (Json.str "u2")
          ([] ++ mkStepTrace (Json.str "u1")) ([] ++ [resOkNext]))
    ∧ (chainLoop endEnv "e" "s" (0 + 1) 0 (Json.str "u1") [] []
      = ([] ++ mkStepTrace (Json.str "u1"), [] ++ [resOkEnd])) :=
  ⟨C5_correct_true.2.1 c2Env "e" "s" 4 0 (Json.str "u1")
      (mkStepTrace (Json.str "u1")) [] [] resOkNext
      (some (Json.bool true)) (Json.str "u2") rfl (by decide) rfl rfl rfl
      rfl rfl,
    C5_correct_true.2.2 endEnv "e" "s" 0 0 (Json.str "u1")
      (mkStepTrace (Json.str "u1")) [] [] resOkEnd
      (some (Json.bool true)) rfl (by decide) rfl rfl rfl rfl⟩

/-- C6: after a successfully submitted iteration whose grading result has a
falsy `correct`, the result is still appended (the result list grows by
exactly one for that iteration); a truthy next URL makes the loop continue
at that URL — a skip to the follow-up, not a retry of the same URL and not
fatal — while an absent next URL terminates the loop right after appending
exactly that result. -/
theorem C6_correct_false :
    (∀ (env : ChainEnv) (email secret : String) (fuel k : Nat) (u : Json)
        (ev tr : List Event) (acc : List Json) (res : Json)
        (cv : Option Json) (nu : Json),
      u.isTruthy = true →
      env.elapsed k < max_time →
      solve_single_quiz (env.steps k) email secret u = (ev, Except.ok res) →
      res.attrGet "correct" = Except.ok cv →
      truthyOpt cv = false →
      res.attrGet "url" = Except.ok (some nu) →
      nu.isTruthy = true →
      chainLoop env email secret (fuel + 1) k u tr acc
        = chainLoop env email secret fuel (k + 1) nu (tr ++ ev) (acc ++ [res]))
    ∧ (∀ (env : ChainEnv) (email secret : String) (fuel k : Nat) (u : Json)
        (ev tr : List Event) (acc : List Json) (res : Json)
        (cv : Option Json),
      u.isTruthy = true →
      env.elapsed k < max_time →
      solve_single_quiz (env.steps k) email secret u = (ev, Except.ok res) →
      res.attrGet "correct" = Except.ok cv →
      truthyOpt cv = false →
      res.attrGet "url" = Except.ok none →
      chainLoop env email secret (fuel + 1) k u tr acc
        = (tr ++ ev, acc ++ [res])) := by
  constructor
  · intro env email secret fuel k u ev tr acc res cv nu h1 h2 hstep hcv hct
      hurl hnu
    exact chainLoop_cont env email secret fuel k u ev tr acc res nu h1 h2
      hstep (chainDecide_cont res cv nu hcv hurl hnu)
  · intro env email secret fuel k u ev tr acc res cv h1 h2 hstep hcv hct hurl
    exact chainLoop_stop env email secret fuel k u ev tr acc res h1 h2 hstep
      (chainDecide_stop_absent res cv hcv hurl)

/-- C6 witness: both decision cases applied at concrete environments
(`correct: false` with next URL `"u2"`, and `correct: false` with only a
`reason`), all hypotheses discharged. -/
theorem C6_witness :
    (chainLoop badNextEnv "e" "s" (4 + 1) 0 (Json.str "u1") [] []
      = chainLoop badNextEnv "e" "s" 4 1 (Json.str "u2")
          ([] ++ mkStepTrace (Json.str "u1")) ([] ++ [resBadNext]))
    ∧ (chainLoop badEndEnv "e" "s" (0 + 1) 0 (Json.str "u1") [] []
      = ([] ++ mkStepTrace (Json.str "u1"), [] ++ [resBadEnd])) :=
  ⟨C6_correct_false.1 badNextEnv "e" "s" 4 0 (Json.str "u1")
      (mkStepTrace (Json.str "u1")) [] [] resBadNext
      (some (Json.bool false)) (Json.str "u2") rfl (by decide) rfl rfl rfl
      rfl rfl,
    C6_correct_false.2 badEndEnv "e" "s" 0 0 (Json.str "u1")
      (mkStepTrace (Json.str "u1")) [] [] resBadEnd
      (some (Json.bool false)) rfl (by decide) rfl rfl rfl rfl⟩

/-- C9: a falsy initial URL (Python `None` or the empty string) fails the
loop guard immediately: the chain performs zero iterations, returns the
empty result list, and invokes none of the services (the event trace is
empty); likewise a grading result whose `url` value is the empty string is
treated exactly like an absent `url`, terminating the chain right after
appending that result. -/
theorem C9_falsy_urls :
    (∀ (env : ChainEnv) (email secret : String) (fuel : Nat),
      solve_quiz_chain env email secret Json.null fuel = ([], []))
    ∧ (∀ (env : ChainEnv) (email secret : String) (fuel : Nat),
      solve_quiz_chain env email secret (Json.str "") fuel = ([], []))
    ∧ (∀ (env : ChainEnv) (email secret : String) (fuel k : Nat) (u : Json)
        (ev tr : List Event) (acc : List Json) (res : Json)
        (cv : Option Json),
      u.isTruthy = true →
      env.elapsed k < max_time →
      solve_single_quiz (env.steps k) email secret u = (ev, Except.ok res) →
      res.attrGet "correct" = Except.ok cv →
      res.attrGet "url" = Except.ok (some (Json.str "")) →
      chainLoop env email secret (fuel + 1) k u tr acc
        = (tr ++ ev, acc ++ [res])) := by
  have hnull : ∀ (env : ChainEnv) (email secret : String) (fuel : Nat),
      solve_quiz_chain env email secret Json.null fuel = ([], []) := by
    intro env email secret fuel
    cases fuel with
    | zero => rfl
    | succ fuel =>
      rw [solve_quiz_chain, chainLoop, if_neg]
      intro hc
      exact Bool.noConfusion hc.1
  have hempty : ∀ (env : ChainEnv) (email secret : String) (fuel : Nat),
      solve_quiz_chain env email secret (Json.str "") fuel = ([], []) := by
    intro env email secret fuel
    cases fuel with
    | zero => rfl
    | succ fuel =>
      rw [solve_quiz_chain, chainLoop, if_neg]
      intro hc
      exact absurd hc.1 (by decide)
  refine ⟨hnull, hempty, ?_⟩
  intro env email secret fuel k u ev tr acc res cv h1 h2 hstep hcv hurl
  exact chainLoop_stop env email secret fuel k u ev tr acc res h1 h2 hstep
    (chainDecide_stop_falsy res cv (Json.str "") hcv hurl rfl)

/-- C9 witness: the empty-string follow-up URL case applied at a concrete
environment, hypotheses discharged (the falsy-initial-URL cases are closed
statements instantiated directly). -/
theorem C9_witness :
    (solve_quiz_chain emptyUrlEnv "e" "s" Json.null 7 = ([], []))
    ∧ (chainLoop emptyUrlEnv "e" "s" (2 + 1) 0 (Json.str "u1") [] []
      = ([] ++ mkStepTrace (Json.str "u1"), [] ++ [resEmptyUrl])) :=
  ⟨C9_falsy_urls.1 emptyUrlEnv "e" "s" 7,
    C9_falsy_urls.2.2 emptyUrlEnv "e" "s" 2 0 (Json.str "u1")
      (mkStepTrace (Json.str "u1")) [] [] resEmptyUrl
      (some (Json.bool true)) rfl (by decide) rfl rfl rfl⟩

/-- C1 counterexample: a parse response that decodes as a JSON object but
lacks `submit_url`.  The source performs no shape check: `parse_quiz_with_llm`
returns the object without raising, the step proceeds, and the submission
client *is* invoked (with a `None` submit URL) — the trace of the concrete
run ends with the submit call.  This refutes the claim that a missing
`submit_url` makes parse raise and prevents the submit call. -/
theorem C1_counterexample :
    jsonParse "\x7b\"question\": \"q\"\x7d"
      = some (Json.obj [("question", Json.str "q")])
    ∧ (Json.obj [("question", Json.str "q")]).attrGet "submit_url"
      = Except.ok none
    ∧ (solve_single_quiz env1 "e" "s" (Json.str "u")).1
      = [Event.render (Json.str "u"), Event.parseLLM, Event.answerLLM,
          Event.submit none]
    ∧ Event.submit none ∈ (solve_single_quiz env1 "e" "s" (Json.str "u")).1 := by
  refine ⟨rfl, rfl, rfl, ?_⟩
  show Event.submit none ∈ [Event.render (Json.str "u"), Event.parseLLM,
    Event.answerLLM, Event.submit none]
  simp

/-- C1 (amended): when the parse response decodes as JSON but lacks a
`submit_url`, `parse_quiz_with_llm` returns the description *without
raising*; provided the fetch and answer phases succeed, the step proceeds
all the way to the submission client, which is invoked with submit URL
`None` — so the chain can only terminate at that iteration through the
failing submit call itself, not through a `ParseError`. -/
theorem C1_missing_submit_url (st : StepEnv) (email secret : String)
    (u : Json) (page : PageContent) (ps : String) (quiz : Json)
    (fev : List Event) (fd : List FileData) (aev : List Event) (ans : Answer)
    (hr : st.render u = Except.ok page)
    (hp : st.llmParse (parsePrompt page.text) = Except.ok ps)
    (hj : jsonParse ps = some quiz)
    (hsu : quiz.attrGet "submit_url" = Except.ok none)
    (hf : fetchPhase st quiz = (fev, Except.ok fd))
    (ha : answerPhase st quiz fd = (aev, Except.ok ans)) :
    parse_quiz_with_llm st page = Except.ok quiz
    ∧ (solve_single_quiz st email secret u).1
      = Event.render u :: Event.parseLLM
          :: ((fev ++ aev) ++ [Event.submit none])
    ∧ Event.submit none ∈ (solve_single_quiz st email secret u).1 := by
  have hparse : parse_quiz_with_llm st page = Except.ok quiz := by
    simp only [parse_quiz_with_llm, hp, hj]
  have heq : (solve_single_quiz st email secret u).1
      = Event.render u :: Event.parseLLM
          :: ((fev ++ aev) ++ [Event.submit none]) := by
    simp only [solve_single_quiz, hr, hparse, hf, ha, hsu]
    cases hpost : st.submitPost none ⟨email, secret, u, ans⟩ <;>
      simp [hpost]
  refine ⟨hparse, heq, ?_⟩
  rw [heq]
  simp

/-- C1 witness: the amended claim applied at the concrete environment whose
parse response is exactly the object without `submit_url`, all hypotheses
discharged. -/
theorem C1_witness :
    parse_quiz_with_llm env1 ⟨"<html>", "text"⟩
      = Except.ok (Json.obj [("question", Json.str "q")])
    ∧ (solve_single_quiz env1 "e" "s" (Json.str "u")).1
      = Event.render (Json.str "u") :: Event.parseLLM
          :: (([] ++ [Event.answerLLM]) ++ [Event.submit none])
    ∧ Event.submit none ∈ (solve_single_quiz env1 "e" "s" (Json.str "u")).1 :=
  C1_missing_submit_url env1 "e" "s" (Json.str "u") ⟨"<html>", "text"⟩
    "\x7b\"question\": \"q\"\x7d" (Json.obj [("question", Json.str "q")])
    [] [] [Event.answerLLM] (Answer.str "42") rfl rfl rfl rfl rfl rfl

/-- C10: a downloaded resource whose content type contains none of `pdf`,
`image`, `text`, `csv` (case-insensitively) contributes no part to the
answering request: its `filePart` is empty, and both the built
`user_content` and the whole answer phase are identical with and without
that resource, wherever it sits in the file list. -/
theorem C10_ignored_content_type (quiz : Json) (fs1 fs2 : List FileData)
    (fd : FileData)
    (h1 : containsSub (strLower fd.content_type) "pdf" = false)
    (h2 : containsSub (strLower fd.content_type) "image" = false)
    (h3 : containsSub (strLower fd.content_type) "text" = false)
    (h4 : containsSub (strLower fd.content_type) "csv" = false) :
    filePart fd = Except.ok []
    ∧ buildUserContent quiz (fs1 ++ fd :: fs2)
      = buildUserContent quiz (fs1 ++ fs2)
    ∧ ∀ st : StepEnv, answerPhase st quiz (fs1 ++ fd :: fs2)
      = answerPhase st quiz (fs1 ++ fs2) := by
  have hfp : filePart fd = Except.ok [] := by
    simp [filePart, h1, h2, h3, h4]
  have hfps : fileParts (fs1 ++ fd :: fs2) = fileParts (fs1 ++ fs2) := by
    induction fs1 with
    | nil =>
      simp only [List.nil_append, fileParts, hfp]
      cases h : fileParts fs2 <;> simp
    | cons x xs ih =>
      simp only [List.cons_append, fileParts, List.append_eq, ih]
  have hb : buildUserContent quiz (fs1 ++ fd :: fs2)
      = buildUserContent quiz (fs1 ++ fs2) := by
    simp only [buildUserContent, hfps]
  exact ⟨hfp, hb, fun st => by simp only [answerPhase, hb]⟩

/-- C10 witness: the claim applied to a concrete resource of content type
`application/octet-stream`, all hypotheses discharged and the answer-phase
equality instantiated at a concrete environment. -/
theorem C10_witness :
    filePart ⟨[1, 2, 3], "application/octet-stream"⟩ = Except.ok []
    ∧ buildUserContent (Json.obj [("question", Json.str "q")])
        ([] ++ ⟨[1, 2, 3], "application/octet-stream"⟩ :: [])
      = buildUserContent (Json.obj [("question", Json.str "q")]) ([] ++ [])
    ∧ answerPhase env1 (Json.obj [("question", Json.str "q")])
        ([] ++ ⟨[1, 2, 3], "application/octet-stream"⟩ :: [])
      = answerPhase env1 (Json.obj [("question", Json.str "q")]) ([] ++ []) := by
  have h := C10_ignored_content_type (Json.obj [("question", Json.str "q")])
    [] [] ⟨[1, 2, 3], "application/octet-stream"⟩
    (by decide) (by decide) (by decide) (by decide)
  exact ⟨h.1, h.2.1, h.2.2 env1⟩
